import Mathlib

/-!
Verification of the FreeBSD network-interface registry (`sys/net/if.c`).

This file shallowly embeds the parts of `if.c` that the properties below
are about: the interface index table (`ifindex_alloc`, `ifindex_free`,
`if_grow`, `ifnet_byindex_locked`, `ifnet_byindex_ref`), multicast
membership management (`if_addmulti`, `if_delmulti`,
`if_delmulti_locked`), the deferred link-state notifier
(`if_link_state_change`, `do_link_state_change`), interface rename
(`if_drvioctl`, case `SIOCSIFNAME`), group membership (`if_addgroup`,
`if_delgroup`), operations-table composition (`ifdriver_bless`), and
reference-counted flag toggling (`if_setflag`, `ifpromisc`,
`if_allmulti`).  Machine pointers are represented by natural-number
identities, C `int` counters by `Int` where a decrement below zero is
representable, and intrusive lists by Lean lists.
-/

/-! ## Interface index table (`if.c:238-317`, `370-393`)

A slot of `V_ifindex_table` is either `NULL`, the reservation sentinel
`IFNET_HOLD` (`(void *)(uintptr_t)(-1)`), or a live `struct ifnet *`
(represented by a numeric identity). -/

inductive Slot where
  | empty : Slot
  | hold : Slot
  | live : Nat → Slot
deriving DecidableEq, Repr

/-- The index-table portion of a vnet's state: `V_ifindex_table`
(its length is `V_if_indexlim`) together with `V_if_index`. -/
structure IfIndexState where
  ifindex_table : List Slot
  if_index : Nat
deriving DecidableEq, Repr

/-- Read slot `i` of the table; out-of-range reads yield `NULL`
(the C table is zero-filled up to `V_if_indexlim`). -/
def getSlot (s : IfIndexState) (i : Nat) : Slot :=
  s.ifindex_table.getD i Slot.empty

/-- `ifnet_byindex_locked`: `NULL` for an index above `V_if_index`,
`NULL` for the `IFNET_HOLD` sentinel, otherwise the table entry. -/
def ifnet_byindex_locked (s : IfIndexState) (idx : Nat) : Option Nat :=
  if s.if_index < idx then none
  else match getSlot s idx with
    | Slot.empty => none
    | Slot.hold => none
    | Slot.live i => some i

/-- The scan loop of `ifindex_alloc`, with the remaining probe count
made explicit (`cnt` probes starting at `idx` stands for the C loop
condition `idx <= hi` with `cnt = hi + 1 - idx`): find the first `NULL`
slot among the next `cnt` ones; if none, the answer is one past the
last probed slot. -/
def findFreeCnt (t : List Slot) : Nat → Nat → Nat
  | 0, idx => idx
  | cnt + 1, idx =>
    if t.getD idx Slot.empty = Slot.empty then idx
    else findFreeCnt t cnt (idx + 1)

/-- `USHRT_MAX`: the scan variable `idx` of `ifindex_alloc` is a
`u_short` and wraps past this value. -/
def USHRT_MAX : Nat := 65535

/-- `for (idx = 1; idx <= V_if_index; idx++) if (table[idx] == NULL) break;`

`idx` is a `u_short` while `V_if_index` is an `int`, so the loop has
two regimes.  When `V_if_index < USHRT_MAX` the increment never wraps
and the loop scans `1..V_if_index`, exiting with `V_if_index + 1` when
every scanned slot is occupied.  When `V_if_index ≥ USHRT_MAX` the exit
condition `idx <= V_if_index` can never fail (a `u_short` is at most
`USHRT_MAX`): the loop scans `1..USHRT_MAX`, then `idx++` wraps to 0
and it scans slot 0, after which it revisits the same slots forever —
so it breaks at the first `NULL` slot in the order `1..USHRT_MAX, 0`
and otherwise never terminates (`none`). -/
def findFree (s : IfIndexState) : Option Nat :=
  if s.if_index < USHRT_MAX then
    some (findFreeCnt s.ifindex_table s.if_index 1)
  else
    if findFreeCnt s.ifindex_table USHRT_MAX 1 ≤ USHRT_MAX then
      some (findFreeCnt s.ifindex_table USHRT_MAX 1)
    else if s.ifindex_table.getD 0 Slot.empty = Slot.empty then some 0
    else none

/-- `if_grow`: double `V_if_indexlim`, copying the old table contents
into the first half of the new zero-filled table. -/
def if_grow (s : IfIndexState) : IfIndexState :=
  { s with ifindex_table :=
      s.ifindex_table ++ List.replicate s.ifindex_table.length Slot.empty }

/-- The `retry:` loop of `ifindex_alloc`, made structurally recursive
by a fuel argument; `none` models non-termination of the C code (a
scan that cycles forever, or — degenerately — unbounded regrowth).
`ifindex_alloc` supplies enough fuel that on states reachable from
`vnet_if_init` the fuel is never the reason for `none`: the scan result
is at most `USHRT_MAX` and table doubling exceeds it after at most
`V_if_index + 1` growth steps. -/
def ifindex_alloc_loop (ifp : Nat) : Nat → IfIndexState →
    Option (IfIndexState × Nat)
  | 0, _ => none
  | fuel + 1, s =>
    match findFree s with
    | none => none
    | some idx =>
      if s.ifindex_table.length ≤ idx then
        ifindex_alloc_loop ifp fuel (if_grow s)
      else
        some ({ ifindex_table := s.ifindex_table.set idx (Slot.live ifp),
                if_index := max s.if_index idx }, idx)

/-- `ifindex_alloc`: run the scan (growing as needed), store the
interface in the slot the scan selected, raise `V_if_index` if the
selected index is larger, and return the assigned index (the C code
stores it in `ifp->if_index`); `none` when the C loop never
terminates. -/
def ifindex_alloc (s : IfIndexState) (ifp : Nat) :
    Option (IfIndexState × Nat) :=
  ifindex_alloc_loop ifp (s.if_index + 2) s

/-- The shrink loop of `ifindex_free`:
`while (V_if_index > 0 && V_ifindex_table[V_if_index] == NULL) V_if_index--;` -/
def shrinkIdx (t : List Slot) : Nat → Nat
  | 0 => 0
  | n + 1 => if t.getD (n + 1) Slot.empty = Slot.empty then shrinkIdx t n else n + 1

/-- `ifindex_free`: null the slot, then shrink the high-water mark while
the topmost slots are null. -/
def ifindex_free (s : IfIndexState) (idx : Nat) : IfIndexState :=
  let t := s.ifindex_table.set idx Slot.empty
  { ifindex_table := t, if_index := shrinkIdx t s.if_index }

/-- Initial index-table state of a vnet: `vnet_if_init` runs `if_grow`
on the static initial `V_if_indexlim = 8` with a `NULL` table, yielding
a zero-filled table of 16 entries and `V_if_index = 0`. -/
def initIfIndexState : IfIndexState :=
  { ifindex_table := List.replicate 16 Slot.empty, if_index := 0 }

/-! ### Basic slot lemmas -/

theorem getSlot_of_ge_length (s : IfIndexState) (i : Nat)
    (h : s.ifindex_table.length ≤ i) : getSlot s i = Slot.empty :=
  List.getD_eq_default _ _ h

theorem getD_set_self (t : List Slot) (i : Nat) (v : Slot) (h : i < t.length) :
    (t.set i v).getD i Slot.empty = v := by
  rw [List.getD_eq_getElem _ _ (by simpa using h)]
  simp [List.getElem_set_self]

theorem getD_set_ne (t : List Slot) (i j : Nat) (v : Slot) (h : j ≠ i) :
    (t.set i v).getD j Slot.empty = t.getD j Slot.empty := by
  rcases Nat.lt_or_ge j t.length with hj | hj
  · rw [List.getD_eq_getElem _ _ (by simpa using hj),
      List.getD_eq_getElem _ _ hj]
    exact List.getElem_set_ne (Ne.symm h) _
  · rw [List.getD_eq_default _ _ (by simpa using hj), List.getD_eq_default _ _ hj]

/-! ### `findFreeCnt` characterization -/

theorem findFreeCnt_zero (t : List Slot) (idx : Nat) : findFreeCnt t 0 idx = idx := rfl

theorem findFreeCnt_succ (t : List Slot) (cnt idx : Nat) :
    findFreeCnt t (cnt + 1) idx =
      if t.getD idx Slot.empty = Slot.empty then idx
      else findFreeCnt t cnt (idx + 1) := rfl

theorem findFreeCnt_ge (t : List Slot) (cnt : Nat) :
    ∀ idx, idx ≤ findFreeCnt t cnt idx := by
  induction cnt with
  | zero => intro idx; exact Nat.le_refl idx
  | succ cnt ih =>
    intro idx
    unfold findFreeCnt
    split
    · exact Nat.le_refl idx
    · exact Nat.le_trans (Nat.le_succ idx) (ih (idx + 1))

theorem findFreeCnt_le (t : List Slot) (cnt : Nat) :
    ∀ idx, findFreeCnt t cnt idx ≤ idx + cnt := by
  induction cnt with
  | zero => intro idx; rw [findFreeCnt_zero]; omega
  | succ cnt ih =>
    intro idx
    unfold findFreeCnt
    split
    · omega
    · have := ih (idx + 1); omega

theorem findFreeCnt_scanned (t : List Slot) (cnt : Nat) :
    ∀ idx j, idx ≤ j → j < findFreeCnt t cnt idx →
      t.getD j Slot.empty ≠ Slot.empty := by
  induction cnt with
  | zero => intro idx j h1 h2; rw [findFreeCnt_zero] at h2; omega
  | succ cnt ih =>
    intro idx j h1 h2
    simp only [findFreeCnt] at h2
    by_cases hempty : t.getD idx Slot.empty = Slot.empty
    · rw [if_pos hempty] at h2; omega
    · rw [if_neg hempty] at h2
      rcases Nat.eq_or_lt_of_le h1 with rfl | hlt
      · exact hempty
      · exact ih (idx + 1) j hlt h2

theorem findFreeCnt_free (t : List Slot) (cnt : Nat) :
    ∀ idx, findFreeCnt t cnt idx < idx + cnt →
      t.getD (findFreeCnt t cnt idx) Slot.empty = Slot.empty := by
  induction cnt with
  | zero => intro idx h; rw [findFreeCnt_zero] at h; omega
  | succ cnt ih =>
    intro idx h
    by_cases hempty : t.getD idx Slot.empty = Slot.empty
    · simp only [findFreeCnt, if_pos hempty]
      exact hempty
    · simp only [findFreeCnt, if_neg hempty] at h ⊢
      exact ih (idx + 1) (by omega)

theorem findFreeCnt_congr (t t' : List Slot) (cnt : Nat)
    (h : ∀ j, t'.getD j Slot.empty = t.getD j Slot.empty) :
    ∀ idx, findFreeCnt t' cnt idx = findFreeCnt t cnt idx := by
  induction cnt with
  | zero => intro idx; rfl
  | succ cnt ih =>
    intro idx
    unfold findFreeCnt
    rw [h idx]
    split
    · rfl
    · exact ih (idx + 1)

/-! ### `if_grow`, `shrinkIdx`, `ifindex_alloc` characterization -/

theorem length_if_grow (s : IfIndexState) :
    (if_grow s).ifindex_table.length = 2 * s.ifindex_table.length := by
  simp [if_grow]; omega

theorem getSlot_if_grow (s : IfIndexState) (i : Nat) :
    getSlot (if_grow s) i = getSlot s i := by
  unfold getSlot if_grow
  rcases Nat.lt_or_ge i s.ifindex_table.length with h | h
  · exact List.getD_append _ _ _ _ h
  · rw [List.getD_append_right _ _ _ _ h, List.getD_eq_default _ _ h]
    rcases Nat.lt_or_ge (i - s.ifindex_table.length)
        (List.replicate s.ifindex_table.length Slot.empty).length with h2 | h2
    · rw [List.getD_eq_getElem _ _ h2, List.getElem_replicate]
    · exact List.getD_eq_default _ _ h2

theorem shrinkIdx_le (t : List Slot) (n : Nat) : shrinkIdx t n ≤ n := by
  induction n with
  | zero => simp [shrinkIdx]
  | succ n ih =>
    unfold shrinkIdx
    split
    · omega
    · omega

theorem shrinkIdx_empty_above (t : List Slot) (n : Nat) :
    ∀ j, shrinkIdx t n < j → j ≤ n → t.getD j Slot.empty = Slot.empty := by
  induction n with
  | zero => intro j h1 h2; omega
  | succ n ih =>
    intro j h1 h2
    unfold shrinkIdx at h1
    by_cases hempty : t.getD (n + 1) Slot.empty = Slot.empty
    · rw [if_pos hempty] at h1
      rcases Nat.eq_or_lt_of_le h2 with rfl | hlt
      · exact hempty
      · exact ih j h1 (by omega)
    · rw [if_neg hempty] at h1; omega

theorem shrinkIdx_stop (t : List Slot) (n : Nat) :
    shrinkIdx t n = 0 ∨ t.getD (shrinkIdx t n) Slot.empty ≠ Slot.empty := by
  induction n with
  | zero => left; rfl
  | succ n ih =>
    unfold shrinkIdx
    by_cases hempty : t.getD (n + 1) Slot.empty = Slot.empty
    · rw [if_pos hempty]; exact ih
    · rw [if_neg hempty]; right; exact hempty

/-! ### `ifindex_free` characterization -/

theorem ifindex_free_slot (s : IfIndexState) (idx : Nat) :
    getSlot (ifindex_free s idx) idx = Slot.empty := by
  unfold ifindex_free getSlot
  rcases Nat.lt_or_ge idx s.ifindex_table.length with h | h
  · exact getD_set_self _ _ _ h
  · exact List.getD_eq_default _ _ (by simpa using h)

theorem ifindex_free_slot_ne (s : IfIndexState) (idx j : Nat) (h : j ≠ idx) :
    getSlot (ifindex_free s idx) j = getSlot s j :=
  getD_set_ne _ _ _ _ h

theorem ifindex_free_if_index_le (s : IfIndexState) (idx : Nat) :
    (ifindex_free s idx).if_index ≤ s.if_index :=
  shrinkIdx_le _ _

theorem ifindex_free_above (s : IfIndexState) (idx : Nat) :
    ∀ j, (ifindex_free s idx).if_index < j → j ≤ s.if_index →
      getSlot (ifindex_free s idx) j = Slot.empty := by
  intro j h1 h2
  exact shrinkIdx_empty_above _ _ j h1 h2

theorem ifindex_free_stop (s : IfIndexState) (idx : Nat) :
    (ifindex_free s idx).if_index = 0 ∨
    getSlot (ifindex_free s idx) (ifindex_free s idx).if_index ≠ Slot.empty :=
  shrinkIdx_stop _ _

/-! ## Interface objects: flags and reference counts (`if.c:260-274`, `945-972`)

`ifnet_byindex_ref` dereferences `ifp->if_flags` and may call `if_ref`,
so alongside the index table we carry a store of interface objects,
keyed by the same numeric identities the table slots hold. -/

/-- The fields of `struct ifnet` that `ifnet_byindex_ref` touches. -/
structure IfnetView where
  if_flags : Nat
  if_refcount : Nat
deriving DecidableEq, Repr

def IFF_DYING : Nat := 0x200000

def IfStore : Type := List (Nat × IfnetView)

instance : DecidableEq IfStore := by unfold IfStore; infer_instance

/-- Dereference an interface pointer in the store. -/
def getIf (d : IfStore) (i : Nat) : Option IfnetView :=
  (d.find? (fun p => p.1 = i)).map (fun p => p.2)

/-- `if_ref`: `refcount_acquire(&ifp->if_refcount)` on the first store
entry for `i`. -/
def if_ref (d : IfStore) (i : Nat) : IfStore :=
  match d with
  | [] => []
  | p :: rest =>
    if p.1 = i then (p.1, { p.2 with if_refcount := p.2.if_refcount + 1 }) :: rest
    else p :: if_ref rest i

/-- `ifnet_byindex_ref`: look the index up under the read lock; return
`NULL` (taking no reference) if the lookup failed or the interface is
marked `IFF_DYING`; otherwise take a reference and return the pointer.
The store lookup (`getIf`) models the pointer dereference of
`ifp->if_flags` and cannot fail for states where table slots point to
stored objects. -/
def ifnet_byindex_ref (s : IfIndexState) (d : IfStore) (idx : Nat) :
    Option Nat × IfStore :=
  match ifnet_byindex_locked s idx with
  | none => (none, d)
  | some i =>
    match getIf d i with
    | none => (none, d)
    | some v =>
      if v.if_flags &&& IFF_DYING ≠ 0 then (none, d)
      else (some i, if_ref d i)

/-- The first statement of `if_detach`:
`ifp->if_flags |= IFF_DYING;` (everything after it, including
`ifindex_free`, happens later, so the index slot still holds the
interface while the flag is already set). -/
def if_detach_markDying (d : IfStore) (i : Nat) : IfStore :=
  match d with
  | [] => []
  | p :: rest =>
    if p.1 = i then (p.1, { p.2 with if_flags := p.2.if_flags ||| IFF_DYING }) :: rest
    else p :: if_detach_markDying rest i

theorem getIf_markDying (d : IfStore) (i : Nat) :
    getIf (if_detach_markDying d i) i =
      (getIf d i).map (fun v => { v with if_flags := v.if_flags ||| IFF_DYING }) := by
  induction d with
  | nil => rfl
  | cons p rest ih =>
    unfold if_detach_markDying getIf
    by_cases hp : p.1 = i
    · simp [List.find?, hp]
    · simp only [if_neg hp]
      unfold getIf at ih
      simp [List.find?, hp, ih]

/-! ## The `u_short` wrap of the `ifindex_alloc` scan index

`idx` in `ifindex_alloc` is a `u_short` while `V_if_index` is an
`int`.  Starting from `vnet_if_init`, 65535 attaches of distinct names
fill every index `1..USHRT_MAX` (`V_if_index = USHRT_MAX`,
`V_if_indexlim = USHRT_MAX + 1`, slot 0 never written).  At that state
the next attach's scan increments `idx` past `USHRT_MAX`, wraps to 0,
finds `V_ifindex_table[0] == NULL` and breaks; both the growth check
(`0 >= V_if_indexlim`) and the high-water update (`0 > V_if_index`)
are skipped, so the interface is stored in slot 0 with
`ifp->if_index = 0` — an index `if_attach_internal` (`if.c:792`)
itself declares a BUG by panicking on `ifp->if_index == 0`, and the
growth promised by the `/* Catch if_index overflow. */` comment never
happens. -/

theorem findFreeCnt_all_occupied (t : List Slot) (cnt : Nat) :
    ∀ idx, (∀ j, idx ≤ j → j < idx + cnt → t.getD j Slot.empty ≠ Slot.empty) →
      findFreeCnt t cnt idx = idx + cnt := by
  induction cnt with
  | zero => intro idx _; rw [findFreeCnt_zero]; omega
  | succ cnt ih =>
    intro idx h
    rw [findFreeCnt_succ, if_neg (h idx (Nat.le_refl idx) (by omega))]
    rw [ih (idx + 1) (fun j h1 h2 => h j (by omega) (by omega))]
    omega

/-- The index table after 65535 attaches: interface `j` occupies every
slot `j ∈ 1..USHRT_MAX`, slot 0 is never allocated, and
`V_if_indexlim = USHRT_MAX + 1`. -/
def fullTable : List Slot :=
  Slot.empty :: (List.range USHRT_MAX).map (fun i => Slot.live (i + 1))

/-- The registry state after 65535 attaches of distinct names. -/
def sFull : IfIndexState :=
  { ifindex_table := fullTable, if_index := USHRT_MAX }

theorem fullTable_length : fullTable.length = USHRT_MAX + 1 := by
  show (Slot.empty ::
    (List.range USHRT_MAX).map (fun i => Slot.live (i + 1))).length = _
  rw [List.length_cons, List.length_map, List.length_range]

theorem fullTable_occupied :
    ∀ j, 1 ≤ j → j ≤ USHRT_MAX →
      fullTable.getD j Slot.empty = Slot.live j := by
  intro j h1 h2
  obtain ⟨i, rfl⟩ : ∃ i, j = i + 1 := ⟨j - 1, by omega⟩
  show (Slot.empty ::
    (List.range USHRT_MAX).map (fun i => Slot.live (i + 1))).getD (i + 1)
      Slot.empty = _
  rw [List.getD_cons_succ]
  rw [List.getD_eq_getElem _ _ (by simpa using (by omega : i < USHRT_MAX))]
  simp

theorem findFreeCnt_fullTable :
    findFreeCnt fullTable USHRT_MAX 1 = USHRT_MAX + 1 := by
  have h := findFreeCnt_all_occupied fullTable USHRT_MAX 1 ?_
  · omega
  · intro j hj1 hj2
    rw [fullTable_occupied j hj1 (by omega)]
    exact fun hc => Slot.noConfusion hc

/-- At the all-occupied state the wrapped scan settles on index 0. -/
theorem findFree_sFull : findFree sFull = some 0 := by
  unfold findFree
  rw [if_neg (show ¬sFull.if_index < USHRT_MAX by
    show ¬USHRT_MAX < USHRT_MAX; omega)]
  have hscan : findFreeCnt sFull.ifindex_table USHRT_MAX 1 = USHRT_MAX + 1 :=
    findFreeCnt_fullTable
  rw [hscan]
  rw [if_neg (by omega)]
  rw [if_pos (show sFull.ifindex_table.getD 0 Slot.empty = Slot.empty from rfl)]

theorem ifindex_alloc_loop_succ (ifp fuel : Nat) (s : IfIndexState) :
    ifindex_alloc_loop ifp (fuel + 1) s =
      match findFree s with
      | none => none
      | some idx =>
        if s.ifindex_table.length ≤ idx then
          ifindex_alloc_loop ifp fuel (if_grow s)
        else
          some ({ ifindex_table := s.ifindex_table.set idx (Slot.live ifp),
                  if_index := max s.if_index idx }, idx) := rfl

/-- At the all-occupied state `ifindex_alloc` stores the interface in
slot 0 and assigns index 0 without growing the table. -/
theorem ifindex_alloc_sFull (ifp : Nat) :
    ifindex_alloc sFull ifp =
      some ({ ifindex_table := fullTable.set 0 (Slot.live ifp),
              if_index := USHRT_MAX }, 0) := by
  show ifindex_alloc_loop ifp (sFull.if_index + 2) sFull = _
  have h2 : sFull.if_index + 2 = USHRT_MAX + 1 + 1 := by
    show USHRT_MAX + 2 = USHRT_MAX + 1 + 1
    omega
  rw [h2, ifindex_alloc_loop_succ, findFree_sFull]
  dsimp only
  rw [if_neg (show ¬sFull.ifindex_table.length ≤ 0 by
    have h := fullTable_length
    show ¬fullTable.length ≤ 0
    omega)]
  rw [Nat.max_zero]
  rfl

/-- C1 (refuting evaluation): at the reachable state where interfaces
occupy every index `1..USHRT_MAX`, the next attach's `ifindex_alloc`
assigns index 0 and publishes the interface in slot 0, producing a
live interface whose index is zero — the code violates the claimed
non-zero-index invariant there (the slot-1 conjunct shows the state is
an ordinary fully-populated table). -/
theorem c1_full_table_attach_gets_index_zero :
    (ifindex_alloc sFull 70000).map (fun r => r.2) = some 0 ∧
    (ifindex_alloc sFull 70000).map (fun r => getSlot r.1 0) =
      some (Slot.live 70000) ∧
    getSlot sFull 1 = Slot.live 1 := by
  refine ⟨?_, ?_, ?_⟩
  · rw [ifindex_alloc_sFull]
    rfl
  · rw [ifindex_alloc_sFull]
    show some (getSlot
      { ifindex_table := fullTable.set 0 (Slot.live 70000),
        if_index := USHRT_MAX } 0) = _
    show some ((fullTable.set 0 (Slot.live 70000)).getD 0 Slot.empty) = _
    rw [getD_set_self _ _ _ (by have h := fullTable_length; omega)]
  · exact fullTable_occupied 1 (by omega) (by decide)

/-- C6 (refuting evaluation): at the all-occupied state no table entry
`≥ 1` below the current limit is free (the scan of `1..USHRT_MAX`
comes back empty-handed), so the claimed contract demands growing the
table and retrying; instead `ifindex_alloc` returns index 0 and leaves
the table at its old size. -/
theorem c6_full_table_allocates_zero_without_growing :
    findFreeCnt fullTable USHRT_MAX 1 = USHRT_MAX + 1 ∧
    (ifindex_alloc sFull 70001).map (fun r => r.1.ifindex_table.length) =
      some (USHRT_MAX + 1) ∧
    (ifindex_alloc sFull 70001).map (fun r => r.2) = some 0 := by
  refine ⟨findFreeCnt_fullTable, ?_, ?_⟩
  · rw [ifindex_alloc_sFull]
    show some ((fullTable.set 0 (Slot.live 70001)).length) = _
    rw [List.length_set, fullTable_length]
  · rw [ifindex_alloc_sFull]
    rfl

/-- Setting the `IFF_DYING` bit leaves the dying test true whatever
the other flag bits are. -/
theorem dying_or_and_ne (x : Nat) : (x ||| IFF_DYING) &&& IFF_DYING ≠ 0 := by
  intro h
  have h21 : ((x ||| IFF_DYING) &&& IFF_DYING).testBit 21 = true := by
    rw [Nat.testBit_land, Nat.testBit_lor]
    have hd : IFF_DYING.testBit 21 = true := by decide
    simp [hd]
  rw [h] at h21
  simp [Nat.zero_testBit] at h21

/-- C4: once an interface has been marked dying (the first statement of
`if_detach`), no new reference-holding lookup succeeds: whenever the
indexed slot still holds a (non-null) pointer to an interface whose
`IFF_DYING` flag is set, `ifnet_byindex_ref` returns `NULL` and leaves
every reference count unchanged; in particular this holds for any store
in which `if_detach` has just marked the interface dying. -/
theorem c4_dying_blocks_ref_lookup :
    (∀ (s : IfIndexState) (d : IfStore) (idx i : Nat) (v : IfnetView),
      getSlot s idx = Slot.live i →
      getIf d i = some v →
      v.if_flags &&& IFF_DYING ≠ 0 →
      ifnet_byindex_ref s d idx = (none, d)) ∧
    (∀ (s : IfIndexState) (d : IfStore) (idx i : Nat) (v : IfnetView),
      getSlot s idx = Slot.live i →
      getIf d i = some v →
      ifnet_byindex_ref s (if_detach_markDying d i) idx =
        (none, if_detach_markDying d i)) := by
  constructor
  · intro s d idx i v hslot hget hdying
    unfold ifnet_byindex_ref
    unfold ifnet_byindex_locked
    by_cases hgt : s.if_index < idx
    · rw [if_pos hgt]
    · rw [if_neg hgt, hslot]
      show (match getIf d i with
        | none => (none, d)
        | some v => if v.if_flags &&& IFF_DYING ≠ 0 then (none, d)
                    else (some i, if_ref d i)) = (none, d)
      rw [hget]
      simp only [if_pos hdying]
  · intro s d idx i v hslot hget
    unfold ifnet_byindex_ref
    unfold ifnet_byindex_locked
    by_cases hgt : s.if_index < idx
    · rw [if_pos hgt]
    · rw [if_neg hgt, hslot]
      have hget2 : getIf (if_detach_markDying d i) i =
          some { v with if_flags := v.if_flags ||| IFF_DYING } := by
        rw [getIf_markDying, hget]
        rfl
      show (match getIf (if_detach_markDying d i) i with
        | none => (none, if_detach_markDying d i)
        | some v => if v.if_flags &&& IFF_DYING ≠ 0
                    then (none, if_detach_markDying d i)
                    else (some i, if_ref (if_detach_markDying d i) i)) =
        (none, if_detach_markDying d i)
      rw [hget2]
      simp only [if_pos (dying_or_and_ne v.if_flags)]

/-- Witness for C4: a two-slot table whose slot 1 holds interface 9 with
`IFF_DYING` set; the referencing lookup fails and the store is
untouched, also after `if_detach` marks a live interface dying. -/
theorem c4_dying_blocks_ref_lookup_witness :
    ifnet_byindex_ref (IfIndexState.mk [Slot.empty, Slot.live 9] 1)
      [(9, IfnetView.mk IFF_DYING 1)] 1 =
      (none, [(9, IfnetView.mk IFF_DYING 1)]) ∧
    ifnet_byindex_ref (IfIndexState.mk [Slot.empty, Slot.live 9] 1)
      (if_detach_markDying [(9, IfnetView.mk 0 1)] 9) 1 =
      (none, if_detach_markDying [(9, IfnetView.mk 0 1)] 9) := by
  constructor
  · exact c4_dying_blocks_ref_lookup.1 (IfIndexState.mk [Slot.empty, Slot.live 9] 1)
      [(9, IfnetView.mk IFF_DYING 1)] 1 9 (IfnetView.mk IFF_DYING 1)
      (by decide) (by decide) (by decide)
  · exact c4_dying_blocks_ref_lookup.2 (IfIndexState.mk [Slot.empty, Slot.live 9] 1)
      [(9, IfnetView.mk 0 1)] 1 9 (IfnetView.mk 0 1) (by decide) (by decide)

/-- C7: the index-table lookup returns `NULL` when the slot holds the
`IFNET_HOLD` reservation sentinel or the index exceeds the current
high-water mark, so a reserved-but-unpublished index is never exposed. -/
theorem c7_lookup_hides_hold_and_overflow :
    ∀ (s : IfIndexState) (idx : Nat),
      getSlot s idx = Slot.hold ∨ s.if_index < idx →
      ifnet_byindex_locked s idx = none := by
  intro s idx h
  unfold ifnet_byindex_locked
  rcases h with hhold | hgt
  · by_cases hgt : s.if_index < idx
    · rw [if_pos hgt]
    · rw [if_neg hgt, hhold]
  · rw [if_pos hgt]

/-- Witness for C7: a reserved (`IFNET_HOLD`) slot below the high-water
mark and an index above the high-water mark both look up as `NULL`. -/
theorem c7_lookup_hides_hold_and_overflow_witness :
    ifnet_byindex_locked (IfIndexState.mk [Slot.empty, Slot.hold] 1) 1 = none ∧
    ifnet_byindex_locked initIfIndexState 5 = none := by
  constructor
  · exact c7_lookup_hides_hold_and_overflow
      (IfIndexState.mk [Slot.empty, Slot.hold] 1) 1 (Or.inl (by decide))
  · exact c7_lookup_hides_hold_and_overflow initIfIndexState 5 (Or.inr (by decide))

/-! ## Link-state notifier (`if.c:2205-2251`) -/

def LINK_STATE_UNKNOWN : Nat := 0
def LINK_STATE_DOWN : Nat := 1
def LINK_STATE_UP : Nat := 2

/-- The link-state fields of one interface: the recorded
`ifp->if_link_state` and the pending count of its `if_linktask`. -/
structure LinkSt where
  if_link_state : Nat
  pending : Nat
deriving DecidableEq, Repr

/-- One execution of `do_link_state_change`: the state it read from
`ifp->if_link_state` and the `pending` argument it received (logged as
"`pending` link states coalesced" when greater than 1). -/
structure LinkDelivery where
  state : Nat
  coalesced : Nat
deriving DecidableEq, Repr

/-- `if_link_state_change`: return if the state hasn't changed;
otherwise record the new state and `taskqueue_enqueue` the link task.
Modelled from the spec: the taskqueue (external to `src/`) keeps a
single queued task instance whose pending count is incremented by each
enqueue while the task has not yet run. -/
def if_link_state_change (s : LinkSt) (link_state : Nat) : LinkSt :=
  if s.if_link_state = link_state then s
  else { if_link_state := link_state, pending := s.pending + 1 }

/-- The deferred work running: `do_link_state_change` reads the current
`ifp->if_link_state` (not the state at scheduling time) and receives the
coalesced pending count, which the taskqueue resets to zero.  Modelled
from the spec: the taskqueue (external to `src/`) runs a queued task
exactly once however many times it was enqueued meanwhile. -/
def runLinkTask (s : LinkSt) : LinkSt × List LinkDelivery :=
  if s.pending = 0 then (s, [])
  else ({ s with pending := 0 }, [LinkDelivery.mk s.if_link_state s.pending])

/-- A rapid burst of link-state signals, none of the deferred work
running in between. -/
def signalAll (s : LinkSt) (l : List Nat) : LinkSt :=
  l.foldl if_link_state_change s

/-- C3: a signal equal to the recorded state is a no-op; a differing
signal records the new state immediately and adds one unit to the single
pending task; any run of the deferred work delivers at most one
notification; and for an interface whose recorded state is down,
signaling down, up, down, up before the work runs yields exactly one
delivery, reflecting the final state (up) with a coalesce count of 3. -/
theorem c3_link_state_coalescing :
    (∀ (s : LinkSt) (ls : Nat), ls = s.if_link_state →
      if_link_state_change s ls = s) ∧
    (∀ (s : LinkSt) (ls : Nat), ls ≠ s.if_link_state →
      if_link_state_change s ls = LinkSt.mk ls (s.pending + 1)) ∧
    (∀ s : LinkSt, (runLinkTask s).2.length ≤ 1) ∧
    (runLinkTask (signalAll (LinkSt.mk LINK_STATE_DOWN 0)
        [LINK_STATE_DOWN, LINK_STATE_UP, LINK_STATE_DOWN, LINK_STATE_UP]) =
      (LinkSt.mk LINK_STATE_UP 0, [LinkDelivery.mk LINK_STATE_UP 3])) := by
  refine ⟨?_, ?_, ?_, by decide⟩
  · intro s ls h
    unfold if_link_state_change
    rw [if_pos h.symm]
  · intro s ls h
    unfold if_link_state_change
    rw [if_neg (fun h2 => h h2.symm)]
  · intro s
    unfold runLinkTask
    split
    · exact Nat.zero_le 1
    · exact Nat.le_refl 1

/-- Witness for C3: concrete no-op and recording signals. -/
theorem c3_link_state_coalescing_witness :
    if_link_state_change (LinkSt.mk LINK_STATE_DOWN 0) LINK_STATE_DOWN =
      LinkSt.mk LINK_STATE_DOWN 0 ∧
    if_link_state_change (LinkSt.mk LINK_STATE_DOWN 0) LINK_STATE_UP =
      LinkSt.mk LINK_STATE_UP 1 := by
  constructor
  · exact c3_link_state_coalescing.1 (LinkSt.mk LINK_STATE_DOWN 0)
      LINK_STATE_DOWN (by decide)
  · exact c3_link_state_coalescing.2.1 (LinkSt.mk LINK_STATE_DOWN 0)
      LINK_STATE_UP (by decide)

/-! ## Reference-counted flag toggles (`if.c:2919-2996`, `3103-3108`) -/

def IFF_PROMISC : Nat := 0x100
def IFF_ALLMULTI : Nat := 0x200
def IFF_PPROMISC : Nat := 0x20000

/-- `ifp->if_flags &= ~flag` on the 32-bit flags word. -/
def maskClear (flags flag : Nat) : Nat := flags &&& (0xffffffff ^^^ flag)

/-- `if_setflag`: the common code for reference-counted flags.  Inputs
are the current `ifp->if_flags`, the current `*refcount`, the flag and
the optional permanent-mode flag, the on/off switch, and `derr`, the
return value the driver's `SIOCSIFFLAGS` ioctl would produce (0 for
success).  Output: the new `(if_flags, *refcount)` pair and the returned
error. -/
def if_setflag (if_flags : Nat) (refcount : Int) (flag pflag : Nat)
    (onswitch : Bool) (derr : Nat) : (Nat × Int) × Nat :=
  if if_flags &&& pflag ≠ 0 then
    ((if_flags, refcount + if onswitch then 1 else -1), 0)
  else
    if onswitch then
      if refcount ≠ 0 then ((if_flags, refcount + 1), 0)
      else
        if derr ≠ 0 then ((if_flags, refcount), derr)
        else ((if_flags ||| flag, refcount + 1), 0)
    else
      if refcount - 1 ≠ 0 then ((if_flags, refcount - 1), 0)
      else
        if derr ≠ 0 then ((if_flags, refcount), derr)
        else ((maskClear if_flags flag, refcount - 1), 0)

/-- The flag-related fields of one interface. -/
structure FlagIf where
  if_flags : Nat
  if_pcount : Int
  if_amcount : Int
deriving DecidableEq, Repr

/-- `ifpromisc`: `if_setflag(ifp, IFF_PROMISC, IFF_PPROMISC,
&ifp->if_pcount, pswitch)` (the log message does not change state). -/
def ifpromisc (ifp : FlagIf) (pswitch : Bool) (derr : Nat) : FlagIf × Nat :=
  let r := if_setflag ifp.if_flags ifp.if_pcount IFF_PROMISC IFF_PPROMISC
    pswitch derr
  ({ ifp with if_flags := r.1.1, if_pcount := r.1.2 }, r.2)

/-- `if_allmulti`: `if_setflag(ifp, IFF_ALLMULTI, 0, &ifp->if_amcount,
onswitch)`. -/
def if_allmulti (ifp : FlagIf) (onswitch : Bool) (derr : Nat) : FlagIf × Nat :=
  let r := if_setflag ifp.if_flags ifp.if_amcount IFF_ALLMULTI 0 onswitch derr
  ({ ifp with if_flags := r.1.1, if_amcount := r.1.2 }, r.2)

theorem if_setflag_err_rollback (fl : Nat) (cnt : Int) (flag pflag : Nat)
    (sw : Bool) (e : Nat) (he : e ≠ 0) (hp : fl &&& pflag = 0)
    (hcase : (sw = true ∧ cnt = 0) ∨ (sw = false ∧ cnt = 1)) :
    if_setflag fl cnt flag pflag sw e = ((fl, cnt), e) := by
  unfold if_setflag
  rw [if_neg (by simp [hp])]
  rcases hcase with ⟨hsw, hcnt⟩ | ⟨hsw, hcnt⟩
  · rw [hsw, if_pos rfl, hcnt]
    rw [if_neg (by simp), if_pos he]
  · rw [hsw, if_neg (by simp), hcnt]
    rw [if_neg (by simp), if_pos he]

/-- C10: when the driver's flags ioctl fails (non-zero `derr`) in the
cases where it is invoked (first "on" or last "off" with no permanent
flag), both the counter and the flags word are returned unchanged and
the driver's error is passed through; with the permanent-mode flag set
only the counter moves and the call succeeds; `ifpromisc` inherits the
full-rollback behaviour. -/
theorem c10_setflag_rollback :
    (∀ (fl : Nat) (cnt : Int) (flag pflag : Nat) (sw : Bool) (e : Nat),
      e ≠ 0 → fl &&& pflag = 0 →
      ((sw = true ∧ cnt = 0) ∨ (sw = false ∧ cnt = 1)) →
      if_setflag fl cnt flag pflag sw e = ((fl, cnt), e)) ∧
    (∀ (fl : Nat) (cnt : Int) (flag pflag : Nat) (sw : Bool) (e : Nat),
      fl &&& pflag ≠ 0 →
      if_setflag fl cnt flag pflag sw e =
        ((fl, cnt + if sw then 1 else -1), 0)) ∧
    (∀ (ifp : FlagIf) (e : Nat), e ≠ 0 →
      ifp.if_flags &&& IFF_PPROMISC = 0 → ifp.if_pcount = 0 →
      ifpromisc ifp true e = (ifp, e)) := by
  refine ⟨?_, ?_, ?_⟩
  · exact if_setflag_err_rollback
  · intro fl cnt flag pflag sw e hp
    unfold if_setflag
    rw [if_pos hp]
  · intro ifp e he hp hcnt
    have h := if_setflag_err_rollback ifp.if_flags ifp.if_pcount IFF_PROMISC
      IFF_PPROMISC true e he hp (Or.inl ⟨rfl, hcnt⟩)
    unfold ifpromisc
    rw [h]

/-- Witness for C10: a failing driver ioctl (error 5, `EIO`) on the
first promiscuous-on request leaves flags and counter untouched; a
permanent-mode toggle touches only the counter. -/
theorem c10_setflag_rollback_witness :
    if_setflag 0 0 IFF_PROMISC IFF_PPROMISC true 5 = ((0, 0), 5) ∧
    if_setflag IFF_PPROMISC 2 IFF_PROMISC IFF_PPROMISC true 5 =
      ((IFF_PPROMISC, 3), 0) ∧
    ifpromisc (FlagIf.mk 0 0 0) true 5 = (FlagIf.mk 0 0 0, 5) := by
  refine ⟨?_, ?_, ?_⟩
  · exact c10_setflag_rollback.1 0 0 IFF_PROMISC IFF_PPROMISC true 5
      (by decide) (by decide) (Or.inl ⟨rfl, rfl⟩)
  · exact c10_setflag_rollback.2.1 IFF_PPROMISC 2 IFF_PROMISC IFF_PPROMISC true 5
      (by decide)
  · exact c10_setflag_rollback.2.2 (FlagIf.mk 0 0 0) 5 (by decide) (by decide) rfl

/-! ## Capability-set composition (`if.c:432-500`, `510-539`)

Operation implementations are opaque function pointers; the two generic
defaults `if_get_counter_default` and `if_snd_qflush` are distinguished
values. -/

inductive OpImpl where
  | custom : Nat → OpImpl
  | getCounterDefault : OpImpl
  | sndQflush : OpImpl
deriving DecidableEq, Repr

/-- The operation slots of `struct ifops` that `ifdriver_bless`
composes (`NULL` = unset). -/
structure IfOps where
  ifop_input : Option OpImpl
  ifop_transmit : Option OpImpl
  ifop_output : Option OpImpl
  ifop_ioctl : Option OpImpl
  ifop_get_counter : Option OpImpl
  ifop_qflush : Option OpImpl
  ifop_resolvemulti : Option OpImpl
  ifop_reassign : Option OpImpl
deriving DecidableEq, Repr

/-- The fields of `struct iftype` read by `ifdriver_bless`. -/
structure Iftype where
  ift_ops : IfOps
  ift_hdrlen : Nat
  ift_addrlen : Nat
  ift_dlt : Nat
  ift_dlt_hdrlen : Nat
deriving DecidableEq, Repr

/-- The fields of `struct ifdriver` touched by `ifdriver_bless`. -/
structure Ifdriver where
  ifdrv_ops : IfOps
  ifdrv_hdrlen : Nat
  ifdrv_addrlen : Nat
  ifdrv_dlt : Nat
  ifdrv_dlt_hdrlen : Nat
  ifdrv_maxqlen : Nat
  ifdrv_blessed : Bool
deriving DecidableEq, Repr

/-- `COPYOP(op)`: copy the type's implementation when the driver left
the slot unset. -/
def copyOp (d t : Option OpImpl) : Option OpImpl :=
  match d with
  | none => t
  | some x => some x

/-- `COPY(f)`: copy the type's numeric field when the driver's is 0. -/
def copyNum (d t : Nat) : Nat := if d = 0 then t else d

/-- `ifdriver_bless`: copy type-level defaults into unset operation
slots and zero numeric fields; a positive `ifdrv_maxqlen` opts into the
generic software queue, forcing `ifop_qflush` to `if_snd_qflush`; the
only generic default installed afterwards is `if_get_counter_default`
for a still-unset counter accessor; finally mark the driver blessed. -/
def ifdriver_bless (ifdrv : Ifdriver) (ift : Option Iftype) : Ifdriver :=
  let d1 := match ift with
    | some t =>
      { ifdrv with
        ifdrv_ops :=
          { ifop_input := copyOp ifdrv.ifdrv_ops.ifop_input t.ift_ops.ifop_input,
            ifop_transmit := copyOp ifdrv.ifdrv_ops.ifop_transmit t.ift_ops.ifop_transmit,
            ifop_output := copyOp ifdrv.ifdrv_ops.ifop_output t.ift_ops.ifop_output,
            ifop_ioctl := copyOp ifdrv.ifdrv_ops.ifop_ioctl t.ift_ops.ifop_ioctl,
            ifop_get_counter := copyOp ifdrv.ifdrv_ops.ifop_get_counter t.ift_ops.ifop_get_counter,
            ifop_qflush := copyOp ifdrv.ifdrv_ops.ifop_qflush t.ift_ops.ifop_qflush,
            ifop_resolvemulti := copyOp ifdrv.ifdrv_ops.ifop_resolvemulti t.ift_ops.ifop_resolvemulti,
            ifop_reassign := copyOp ifdrv.ifdrv_ops.ifop_reassign t.ift_ops.ifop_reassign },
        ifdrv_hdrlen := copyNum ifdrv.ifdrv_hdrlen t.ift_hdrlen,
        ifdrv_addrlen := copyNum ifdrv.ifdrv_addrlen t.ift_addrlen,
        ifdrv_dlt := copyNum ifdrv.ifdrv_dlt t.ift_dlt,
        ifdrv_dlt_hdrlen := copyNum ifdrv.ifdrv_dlt_hdrlen t.ift_dlt_hdrlen }
    | none => ifdrv
  let d2 := if 0 < d1.ifdrv_maxqlen then
      { d1 with ifdrv_ops := { d1.ifdrv_ops with ifop_qflush := some OpImpl.sndQflush } }
    else d1
  let d3 := if d2.ifdrv_ops.ifop_get_counter = none then
      { d2 with ifdrv_ops :=
        { d2.ifdrv_ops with ifop_get_counter := some OpImpl.getCounterDefault } }
    else d2
  { d3 with ifdrv_blessed := true }

/-- The blessing step of `if_attach`: bless exactly once, guarded by
the `IFDRV_BLESSED` flag. -/
def if_attach_blessing (ifdrv : Ifdriver) (ift : Option Iftype) : Ifdriver :=
  if ifdrv.ifdrv_blessed then ifdrv else ifdriver_bless ifdrv ift

/-- C9: composing a capability set where the driver supplies only
`input` and `transmit` and the registered type supplies `ioctl` and
`output` yields a table with all four slots non-null (the driver's two
kept, the type's two copied) and the still-unset counter accessor
resolved to the generic `if_get_counter_default`. -/
theorem c9_bless_fills_slots :
    ∀ (drv : Ifdriver) (t : Iftype) (a b c d : OpImpl),
      drv.ifdrv_ops.ifop_input = some a →
      drv.ifdrv_ops.ifop_transmit = some b →
      drv.ifdrv_ops.ifop_output = none →
      drv.ifdrv_ops.ifop_ioctl = none →
      drv.ifdrv_ops.ifop_get_counter = none →
      t.ift_ops.ifop_output = some c →
      t.ift_ops.ifop_ioctl = some d →
      t.ift_ops.ifop_get_counter = none →
      (ifdriver_bless drv (some t)).ifdrv_ops.ifop_input = some a ∧
      (ifdriver_bless drv (some t)).ifdrv_ops.ifop_transmit = some b ∧
      (ifdriver_bless drv (some t)).ifdrv_ops.ifop_output = some c ∧
      (ifdriver_bless drv (some t)).ifdrv_ops.ifop_ioctl = some d ∧
      (ifdriver_bless drv (some t)).ifdrv_ops.ifop_get_counter =
        some OpImpl.getCounterDefault := by
  intro drv t a b c d hin htr hout hioc hgc tout tioc tgc
  unfold ifdriver_bless
  simp only [hin, htr, hout, hioc, hgc, tout, tioc, tgc, copyOp]
  by_cases hq : 0 < drv.ifdrv_maxqlen
  · simp [hq]
  · simp [hq]

/-- Witness for C9: a concrete driver with only input and transmit, a
concrete type with ioctl and output defaults. -/
theorem c9_bless_fills_slots_witness :
    (ifdriver_bless
      (Ifdriver.mk
        (IfOps.mk (some (OpImpl.custom 1)) (some (OpImpl.custom 2))
          none none none none none none) 14 6 1 4 0 false)
      (some (Iftype.mk
        (IfOps.mk none none (some (OpImpl.custom 3)) (some (OpImpl.custom 4))
          none none none none) 14 6 1 4))).ifdrv_ops.ifop_input =
      some (OpImpl.custom 1) ∧
    (ifdriver_bless
      (Ifdriver.mk
        (IfOps.mk (some (OpImpl.custom 1)) (some (OpImpl.custom 2))
          none none none none none none) 14 6 1 4 0 false)
      (some (Iftype.mk
        (IfOps.mk none none (some (OpImpl.custom 3)) (some (OpImpl.custom 4))
          none none none none) 14 6 1 4))).ifdrv_ops.ifop_get_counter =
      some OpImpl.getCounterDefault := by
  have h := c9_bless_fills_slots
    (Ifdriver.mk
      (IfOps.mk (some (OpImpl.custom 1)) (some (OpImpl.custom 2))
        none none none none none none) 14 6 1 4 0 false)
    (Iftype.mk
      (IfOps.mk none none (some (OpImpl.custom 3)) (some (OpImpl.custom 4))
        none none none none) 14 6 1 4)
    (OpImpl.custom 1) (OpImpl.custom 2) (OpImpl.custom 3) (OpImpl.custom 4)
    rfl rfl rfl rfl rfl rfl rfl rfl
  exact ⟨h.1, h.2.2.2.2⟩

/-! ## Errno constants (FreeBSD `errno.h`) -/

def ENOENT : Nat := 2
def ENOMEM : Nat := 12
def EEXIST : Nat := 17
def EINVAL : Nat := 22
def EOPNOTSUPP : Nat := 45

/-! ## Group membership (`if.c:1234-1347`) -/

/-- `struct ifg_group`: group name, member reference count, and ordered
member interfaces (`ifg_members`); refcount is a C `int`. -/
structure IfgGroup where
  ifg_group : String
  ifg_refcnt : Int
  ifg_members : List Nat
deriving DecidableEq, Repr

/-- The global group list `V_ifg_head` plus the union of every
interface's `if_groups` list, flattened into (interface, group-name)
pairs in insertion order. -/
structure GroupState where
  ifg_head : List IfgGroup
  ifgls : List (Nat × String)
deriving DecidableEq, Repr

/-- `groupname[0] && groupname[strlen(groupname) - 1] >= '0' && ... <= '9'` -/
def endsInDigit (g : String) : Bool :=
  !g.data.isEmpty &&
    (decide (48 ≤ (g.data.getLastD (Char.ofNat 97)).toNat) &&
     decide ((g.data.getLastD (Char.ofNat 97)).toNat ≤ 57))

def groupsFind (l : List IfgGroup) (g : String) : Option IfgGroup :=
  l.find? (fun x => x.ifg_group = g)

/-- Mutate the first group carrying name `g` in place. -/
def groupsUpdate (l : List IfgGroup) (g : String) (f : IfgGroup → IfgGroup) :
    List IfgGroup :=
  match l with
  | [] => []
  | x :: xs => if x.ifg_group = g then f x :: xs else x :: groupsUpdate xs g f

/-- `TAILQ_REMOVE` of the first member entry for `ifp`. -/
def removeFirstMember (l : List Nat) (ifp : Nat) : List Nat :=
  match l with
  | [] => []
  | x :: xs => if x = ifp then xs else x :: removeFirstMember xs ifp

/-- `TAILQ_REMOVE` of the first `ifgl` of `ifp` naming `g`. -/
def removeFirstIfgl (l : List (Nat × String)) (ifp : Nat) (g : String) :
    List (Nat × String) :=
  match l with
  | [] => []
  | x :: xs => if x = (ifp, g) then xs else x :: removeFirstIfgl xs ifp g

/-- `if_addgroup`: reject names ending in a digit (`EINVAL`) and double
joins (`EEXIST`); find or create (at the tail of `V_ifg_head`, refcount
0) the named group; increment its refcount and append the member and the
interface's group-list entry. -/
def if_addgroup (st : GroupState) (ifp : Nat) (g : String) : GroupState × Nat :=
  if endsInDigit g then (st, EINVAL)
  else if (ifp, g) ∈ st.ifgls then (st, EEXIST)
  else
    match groupsFind st.ifg_head g with
    | none =>
      ({ ifg_head := st.ifg_head ++ [IfgGroup.mk g 1 [ifp]],
         ifgls := st.ifgls ++ [(ifp, g)] }, 0)
    | some _ =>
      ({ ifg_head := groupsUpdate st.ifg_head g (fun x =>
           { x with ifg_refcnt := x.ifg_refcnt + 1,
                    ifg_members := x.ifg_members ++ [ifp] }),
         ifgls := st.ifgls ++ [(ifp, g)] }, 0)

/-- `if_delgroup`: `ENOENT` if the interface is not a member; otherwise
unlink the interface's group-list entry and the group's member entry,
decrement the group's refcount, and when it reaches zero remove the
group from the global set (firing the detach event and freeing it). -/
def if_delgroup (st : GroupState) (ifp : Nat) (g : String) : GroupState × Nat :=
  if (ifp, g) ∈ st.ifgls then
    match groupsFind st.ifg_head g with
    | some grp =>
      ({ ifg_head :=
          if grp.ifg_refcnt - 1 = 0 then
            st.ifg_head.filter (fun y => y.ifg_group ≠ g)
          else
            groupsUpdate st.ifg_head g (fun x =>
              { x with ifg_refcnt := x.ifg_refcnt - 1,
                       ifg_members := removeFirstMember x.ifg_members ifp }),
         ifgls := removeFirstIfgl st.ifgls ifp g }, 0)
    | none => (st, 0)
  else (st, ENOENT)

/-- A group named `g` is in the global set. -/
def groupPresent (st : GroupState) (g : String) : Bool :=
  st.ifg_head.any (fun x => x.ifg_group = g)

theorem groupsUpdate_present (l : List IfgGroup) (g : String)
    (f : IfgGroup → IfgGroup) (hf : ∀ x, (f x).ifg_group = x.ifg_group)
    (h : (groupsFind l g).isSome) :
    (groupsUpdate l g f).any (fun x => x.ifg_group = g) = true := by
  induction l with
  | nil => simp [groupsFind] at h
  | cons x xs ih =>
    unfold groupsUpdate
    by_cases hx : x.ifg_group = g
    · rw [if_pos hx]
      simp [List.any_cons, hf x, hx]
    · rw [if_neg hx]
      have h2 : (groupsFind xs g).isSome := by
        unfold groupsFind at h
        rw [List.find?_cons_of_neg _ (by simpa using hx)] at h
        exact h
      simp [List.any_cons, ih h2]

def grpLan : String := "lan"

/-- C8: a named group is removed from the global set exactly when its
member reference count reaches zero: deleting a member removes the group
iff the prior refcount was 1; and concretely, after interfaces 1 and 2
both join "lan" and then leave, the group survives the first leave and
is destroyed by the second, not before. -/
theorem c8_group_destroyed_on_last_leave :
    (∀ (st : GroupState) (ifp : Nat) (g : String) (grp : IfgGroup),
      (ifp, g) ∈ st.ifgls →
      groupsFind st.ifg_head g = some grp →
      (groupPresent (if_delgroup st ifp g).1 g = true ↔ grp.ifg_refcnt ≠ 1)) ∧
    (groupPresent (if_addgroup (if_addgroup (GroupState.mk [] []) 1 grpLan).1
        2 grpLan).1 grpLan = true ∧
     groupPresent (if_delgroup (if_addgroup (if_addgroup
        (GroupState.mk [] []) 1 grpLan).1 2 grpLan).1 1 grpLan).1 grpLan = true ∧
     groupPresent (if_delgroup (if_delgroup (if_addgroup (if_addgroup
        (GroupState.mk [] []) 1 grpLan).1 2 grpLan).1 1 grpLan).1 2 grpLan).1
        grpLan = false) := by
  constructor
  · intro st ifp g grp hmem hfind
    unfold if_delgroup
    rw [if_pos hmem, hfind]
    dsimp only
    by_cases hone : grp.ifg_refcnt - 1 = 0
    · rw [if_pos hone]
      unfold groupPresent
      constructor
      · intro h
        exfalso
        simp only [List.any_eq_true] at h
        obtain ⟨x, hx1, hx2⟩ := h
        have := List.of_mem_filter hx1
        simp at this hx2
        exact this hx2
      · intro h; exfalso; apply h; omega
    · rw [if_neg hone]
      constructor
      · intro _; omega
      · intro _
        exact groupsUpdate_present st.ifg_head g _ (fun x => rfl)
          (by rw [hfind]; rfl)
  · refine ⟨by decide, by decide, by decide⟩

/-- Witness for C8: applying the exact-removal rule to the two-member
"lan" group (refcount 2) shows the first leave keeps it. -/
theorem c8_group_destroyed_on_last_leave_witness :
    groupPresent (if_delgroup (GroupState.mk
      [IfgGroup.mk grpLan 2 [1, 2]] [(1, grpLan), (2, grpLan)]) 1 grpLan).1
      grpLan = true := by
  have h := c8_group_destroyed_on_last_leave.1
    (GroupState.mk [IfgGroup.mk grpLan 2 [1, 2]] [(1, grpLan), (2, grpLan)])
    1 grpLan (IfgGroup.mk grpLan 2 [1, 2]) (by decide) (by decide)
  exact h.2 (by decide)

/-! ## Interface rename (`if.c:2557-2612`)

The registry keeps each interface's display name `if_xname` and the
name encoding embedded in its link-layer `sockaddr_dl`
(`sdl_nlen` name bytes at the head of `sdl_data`, followed by
`sdl_alen` link-layer address bytes). -/

structure SdlName where
  sdl_nlen : Nat
  sdl_data : List Nat
deriving DecidableEq, Repr

/-- One registered interface as seen by name lookups and rename. -/
structure IfnetN where
  id : Nat
  if_xname : String
  sdl : SdlName
deriving DecidableEq, Repr

def nameBytes (s : String) : List Nat := s.data.map Char.toNat

/-- `ifunit`: first interface on `V_ifnet` whose `if_xname` matches. -/
def ifunit (reg : List IfnetN) (name : String) : Option IfnetN :=
  reg.find? (fun x => x.if_xname = name)

/-- The link-layer-address construction of `if_attach`
(`if.c:613-645`): `sdl_nlen` name bytes followed by `sdl_alen` address
bytes, with `TAILQ_INSERT_TAIL` into the registry (capacity for an
`IFNAMSIZ`-byte name is reserved so later renames fit in place). -/
def mini_if_attach (reg : List IfnetN) (id : Nat) (name : String)
    (lla : List Nat) : List IfnetN :=
  reg ++ [IfnetN.mk id name (SdlName.mk (nameBytes name).length
    (nameBytes name ++ lla))]

/-- The in-place `sockaddr_dl` mutation of the `SIOCSIFNAME` case:
move the `sdl_alen` address bytes from offset `sdl_nlen` to the new
name length, copy the new name bytes in, and set `sdl_nlen`. -/
def sdl_rename (s : SdlName) (alen : Nat) (new_name : String) : SdlName :=
  SdlName.mk (nameBytes new_name).length
    (nameBytes new_name ++ ((s.sdl_data.drop s.sdl_nlen).take alen))

/-- The `SIOCSIFNAME` case of `if_drvioctl`: reject an empty name
(`EINVAL`) and a name already in use (`EEXIST`, checked with `ifunit`
before any mutation); otherwise rewrite `if_xname` and the embedded
link-layer name encoding of the target interface in place. -/
def siocsifname (reg : List IfnetN) (ifpId : Nat) (alen : Nat)
    (new_name : String) : List IfnetN × Nat :=
  if new_name = "" then (reg, EINVAL)
  else if (ifunit reg new_name).isSome then (reg, EEXIST)
  else
    (reg.map (fun x =>
      if x.id = ifpId then IfnetN.mk x.id new_name (sdl_rename x.sdl alen new_name)
      else x), 0)

def nameA0 : String := "a0"
def nameB0 : String := "b0"

/-- The two-interface registry of the C5 scenario: attach "a0" then
"b0", with 2-byte link-layer addresses. -/
def regAB : List IfnetN :=
  mini_if_attach (mini_if_attach [] 1 nameA0 [170, 187]) 2 nameB0 [204, 221]

/-- C5: renaming to a name already in use fails with `EEXIST` and
leaves the registry — names and embedded link-layer name encodings —
completely unchanged; in particular renaming "b0" to "a0" after
attaching "a0" and "b0" fails this way. -/
theorem c5_rename_rejects_collision :
    (∀ (reg : List IfnetN) (ifpId alen : Nat) (new_name : String),
      new_name ≠ "" → (ifunit reg new_name).isSome →
      siocsifname reg ifpId alen new_name = (reg, EEXIST)) ∧
    (siocsifname regAB 2 2 nameA0 = (regAB, EEXIST) ∧
     (siocsifname regAB 2 2 nameA0).1.map (fun x => x.if_xname) =
       [nameA0, nameB0] ∧
     (siocsifname regAB 2 2 nameA0).1.map (fun x => x.sdl) =
       [SdlName.mk 2 [97, 48, 170, 187], SdlName.mk 2 [98, 48, 204, 221]]) := by
  constructor
  · intro reg ifpId alen new_name hne hfound
    unfold siocsifname
    rw [if_neg hne, if_pos hfound]
  · refine ⟨by decide, by decide, by decide⟩

/-- Witness for C5: the general rejection rule applied to the concrete
two-interface registry. -/
theorem c5_rename_rejects_collision_witness :
    siocsifname regAB 2 2 nameA0 = (regAB, EEXIST) :=
  c5_rename_rejects_collision.1 regAB 2 2 nameA0 (by decide) (by decide)

/-! ## Multicast membership (`if.c:3110-3510`)

Addresses are family-tagged (`AF_LINK` vs. protocol); `if_findmulti`
compares the query's family (`sa_dl_equal` for link-layer, `sa_equal`
otherwise), both being content equality, so membership identity is
address equality and addresses are unique in the list (`if_addmulti`
never inserts a duplicate). -/

inductive Addr where
  | link : Nat → Addr
  | proto : Nat → Addr
deriving DecidableEq, Repr

/-- `struct ifmultiaddr`: address, optional resolved link-layer address
(`ifma_lladdr`), reference count (a C `int`), and the optional owned
link-layer membership (`ifma_llifma`), referenced by its address. -/
structure Ifmultiaddr where
  ifma_addr : Addr
  ifma_lladdr : Option Addr
  ifma_refcount : Int
  ifma_llifma : Option Addr
deriving DecidableEq, Repr

/-- `if_findmulti`: first entry whose address equals `sa`. -/
def if_findmulti (l : List Ifmultiaddr) (sa : Addr) : Option Ifmultiaddr :=
  l.find? (fun m => m.ifma_addr = sa)

/-- `ifma->ifma_refcount++` on the entry `if_findmulti` returns. -/
def bumpRef (l : List Ifmultiaddr) (sa : Addr) : List Ifmultiaddr :=
  match l with
  | [] => []
  | m :: t =>
    if m.ifma_addr = sa then
      { m with ifma_refcount := m.ifma_refcount + 1 } :: t
    else m :: bumpRef t sa

/-- `--ifma->ifma_refcount` on the entry `if_findmulti` returns. -/
def decRef (l : List Ifmultiaddr) (sa : Addr) : List Ifmultiaddr :=
  match l with
  | [] => []
  | m :: t =>
    if m.ifma_addr = sa then
      { m with ifma_refcount := m.ifma_refcount - 1 } :: t
    else m :: decRef t sa

/-- `TAILQ_REMOVE` + `if_freemulti` of the entry `if_findmulti`
returns. -/
def removeFirstMulti (l : List Ifmultiaddr) (sa : Addr) : List Ifmultiaddr :=
  match l with
  | [] => []
  | m :: t => if m.ifma_addr = sa then t else m :: removeFirstMulti t sa

/-- Outcome of the driver/type `if_resolvemulti` callback. -/
inductive ResolveRes where
  | ok : Addr → ResolveRes
  | err : Nat → ResolveRes
deriving DecidableEq, Repr

/-- `if_addmulti`: if the address is already present, bump its
reference count and return it; otherwise resolve it to a link-layer
address (`EOPNOTSUPP` means none, any other error aborts), allocate the
new membership (refcount 1), find-or-allocate the link-layer membership
when one was resolved (bumping its count if found, inserting it at the
head if not) and link it, then insert the new membership at the head.
Returns `(error, new list, *retifma as an address)`. -/
def if_addmulti (res : Addr → ResolveRes) (l : List Ifmultiaddr) (sa : Addr) :
    Nat × List Ifmultiaddr × Option Addr :=
  match if_findmulti l sa with
  | some _ => (0, bumpRef l sa, some sa)
  | none =>
    match res sa with
    | ResolveRes.err e =>
      if e = EOPNOTSUPP then
        (0, Ifmultiaddr.mk sa none 1 none :: l, some sa)
      else (e, l, none)
    | ResolveRes.ok llsa =>
      match if_findmulti l llsa with
      | none =>
        (0, Ifmultiaddr.mk sa (some llsa) 1 (some llsa) ::
          (Ifmultiaddr.mk llsa none 1 none :: l), some sa)
      | some _ =>
        (0, Ifmultiaddr.mk sa (some llsa) 1 (some llsa) :: bumpRef l llsa,
          some sa)

/-- `if_delmulti_locked` (non-detaching, interface alive), taking the
membership by its address: decrement; while references remain return 0;
on the last reference release the owned link-layer membership first
(decrementing it and unlinking it when its own count reaches zero),
then unlink and free the membership and return 1 ("reprogram the
hardware filter"). -/
def if_delmulti_locked (l : List Ifmultiaddr) (sa : Addr) :
    List Ifmultiaddr × Nat :=
  match if_findmulti l sa with
  | none => (l, 0)
  | some ifma =>
    if ifma.ifma_refcount - 1 > 0 then (decRef l sa, 0)
    else
      let l1 := match ifma.ifma_llifma with
        | some ll =>
          match if_findmulti l ll with
          | some llm =>
            if llm.ifma_refcount - 1 = 0 then removeFirstMulti l ll
            else decRef l ll
          | none => l
        | none => l
      (removeFirstMulti l1 sa, 1)

/-- `if_delmulti`: `ENOENT` when no membership carries the address;
otherwise run the locked deletion and (when it reported the last
reference) issue the driver's `SIOCDELMULTI` ioctl.  Returns
`(error, new list, lastref)`. -/
def if_delmulti (l : List Ifmultiaddr) (sa : Addr) :
    Nat × List Ifmultiaddr × Nat :=
  match if_findmulti l sa with
  | none => (ENOENT, l, 0)
  | some _ =>
    (0, (if_delmulti_locked l sa).1, (if_delmulti_locked l sa).2)

/-- `N` successive joins of the same address. -/
def joinN (res : Addr → ResolveRes) (sa : Addr) : Nat → List Ifmultiaddr →
    List Ifmultiaddr
  | 0, l => l
  | n + 1, l => joinN res sa n (if_addmulti res l sa).2.1

/-- `N` successive leaves of the same address, collecting the
"reprogram the hardware filter" indications in order. -/
def leaveN (sa : Addr) : Nat → List Ifmultiaddr →
    List Ifmultiaddr × List Nat
  | 0, l => (l, [])
  | n + 1, l =>
    ((leaveN sa n (if_delmulti l sa).2.1).1,
      (if_delmulti l sa).2.2 :: (leaveN sa n (if_delmulti l sa).2.1).2)

/-- Membership list shape after `k` joins of `sa` whose resolution
produced a link-layer address `ll` that was not previously a member:
the protocol-layer membership (count `k`) owning one reference to the
link-layer membership (count 1). -/
def midA (sa ll : Addr) (k : Int) (l0 : List Ifmultiaddr) : List Ifmultiaddr :=
  Ifmultiaddr.mk sa (some ll) k (some ll) ::
    Ifmultiaddr.mk ll none 1 none :: l0

/-- Membership list shape after `k` joins of `sa` whose resolution
returned `EOPNOTSUPP` (no link-layer membership). -/
def midB (sa : Addr) (k : Int) (l0 : List Ifmultiaddr) : List Ifmultiaddr :=
  Ifmultiaddr.mk sa none k none :: l0

theorem addmulti_midA (res : Addr → ResolveRes) (sa ll : Addr) (k : Int)
    (l0 : List Ifmultiaddr) :
    if_addmulti res (midA sa ll k l0) sa = (0, midA sa ll (k + 1) l0, some sa) := by
  unfold if_addmulti if_findmulti midA
  rw [List.find?_cons_of_pos _ (by simp)]
  unfold bumpRef
  rw [if_pos rfl]

theorem addmulti_midB (res : Addr → ResolveRes) (sa : Addr) (k : Int)
    (l0 : List Ifmultiaddr) :
    if_addmulti res (midB sa k l0) sa = (0, midB sa (k + 1) l0, some sa) := by
  unfold if_addmulti if_findmulti midB
  rw [List.find?_cons_of_pos _ (by simp)]
  unfold bumpRef
  rw [if_pos rfl]

theorem addmulti_freshA (res : Addr → ResolveRes) (l0 : List Ifmultiaddr)
    (sa ll : Addr) (h0 : if_findmulti l0 sa = none)
    (hres : res sa = ResolveRes.ok ll) (hll : if_findmulti l0 ll = none) :
    if_addmulti res l0 sa = (0, midA sa ll 1 l0, some sa) := by
  unfold if_addmulti
  rw [h0]
  dsimp only
  rw [hres]
  dsimp only
  rw [hll]
  rfl

theorem addmulti_freshB (res : Addr → ResolveRes) (l0 : List Ifmultiaddr)
    (sa : Addr) (h0 : if_findmulti l0 sa = none)
    (hres : res sa = ResolveRes.err EOPNOTSUPP) :
    if_addmulti res l0 sa = (0, midB sa 1 l0, some sa) := by
  unfold if_addmulti
  rw [h0]
  dsimp only
  rw [hres]
  dsimp only
  rw [if_pos rfl]
  rfl

theorem joinN_midA (res : Addr → ResolveRes) (sa ll : Addr)
    (l0 : List Ifmultiaddr) :
    ∀ (n : Nat) (k : Int), joinN res sa n (midA sa ll k l0) =
      midA sa ll (k + n) l0 := by
  intro n
  induction n with
  | zero => intro k; simp [joinN]
  | succ n ih =>
    intro k
    show joinN res sa n (if_addmulti res (midA sa ll k l0) sa).2.1 = _
    rw [addmulti_midA]
    show joinN res sa n (midA sa ll (k + 1) l0) = _
    rw [ih (k + 1)]
    congr 1
    push_cast
    ring

theorem joinN_midB (res : Addr → ResolveRes) (sa : Addr)
    (l0 : List Ifmultiaddr) :
    ∀ (n : Nat) (k : Int), joinN res sa n (midB sa k l0) =
      midB sa (k + n) l0 := by
  intro n
  induction n with
  | zero => intro k; simp [joinN]
  | succ n ih =>
    intro k
    show joinN res sa n (if_addmulti res (midB sa k l0) sa).2.1 = _
    rw [addmulti_midB]
    show joinN res sa n (midB sa (k + 1) l0) = _
    rw [ih (k + 1)]
    congr 1
    push_cast
    ring

theorem delmulti_midA_ge2 (sa ll : Addr) (k : Int) (l0 : List Ifmultiaddr)
    (hk : 2 ≤ k) :
    if_delmulti (midA sa ll k l0) sa = (0, midA sa ll (k - 1) l0, 0) := by
  unfold if_delmulti if_delmulti_locked if_findmulti midA
  rw [List.find?_cons_of_pos _ (by simp)]
  dsimp only
  rw [if_pos (show k - 1 > 0 by omega)]
  unfold decRef
  rw [if_pos rfl]

theorem delmulti_midB_ge2 (sa : Addr) (k : Int) (l0 : List Ifmultiaddr)
    (hk : 2 ≤ k) :
    if_delmulti (midB sa k l0) sa = (0, midB sa (k - 1) l0, 0) := by
  unfold if_delmulti if_delmulti_locked if_findmulti midB
  rw [List.find?_cons_of_pos _ (by simp)]
  dsimp only
  rw [if_pos (show k - 1 > 0 by omega)]
  unfold decRef
  rw [if_pos rfl]

theorem removeFirstMulti_cons_pos (m : Ifmultiaddr) (t : List Ifmultiaddr)
    (sa : Addr) (h : m.ifma_addr = sa) :
    removeFirstMulti (m :: t) sa = t := by
  unfold removeFirstMulti
  rw [if_pos h]

theorem removeFirstMulti_cons_neg (m : Ifmultiaddr) (t : List Ifmultiaddr)
    (sa : Addr) (h : ¬m.ifma_addr = sa) :
    removeFirstMulti (m :: t) sa = m :: removeFirstMulti t sa := by
  conv_lhs => unfold removeFirstMulti
  rw [if_neg h]

theorem delmulti_midA_one (sa ll : Addr) (l0 : List Ifmultiaddr)
    (hne : sa ≠ ll) :
    if_delmulti (midA sa ll 1 l0) sa = (0, l0, 1) := by
  unfold if_delmulti if_delmulti_locked if_findmulti midA
  rw [List.find?_cons_of_pos _ (by simp)]
  dsimp only
  rw [if_neg (show ¬((1 : Int) - 1 > 0) by omega)]
  rw [List.find?_cons_of_neg _ (by simpa using hne)]
  rw [List.find?_cons_of_pos _ (by simp)]
  dsimp only
  rw [if_pos (show (1 : Int) - 1 = 0 by omega)]
  rw [removeFirstMulti_cons_neg _ _ _ (by simpa using hne)]
  rw [removeFirstMulti_cons_pos _ _ _ rfl]
  rw [removeFirstMulti_cons_pos _ _ _ rfl]

theorem delmulti_midB_one (sa : Addr) (l0 : List Ifmultiaddr) :
    if_delmulti (midB sa 1 l0) sa = (0, l0, 1) := by
  unfold if_delmulti if_delmulti_locked if_findmulti midB
  rw [List.find?_cons_of_pos _ (by simp)]
  dsimp only
  rw [if_neg (show ¬((1 : Int) - 1 > 0) by omega)]
  unfold removeFirstMulti
  rw [if_pos rfl]

theorem leaveN_midA (sa ll : Addr) (l0 : List Ifmultiaddr) (hne : sa ≠ ll) :
    ∀ n : Nat, 1 ≤ n →
      leaveN sa n (midA sa ll n l0) = (l0, List.replicate (n - 1) 0 ++ [1]) := by
  intro n
  induction n with
  | zero => intro h; omega
  | succ n ih =>
    intro _
    by_cases hn : n = 0
    · subst hn
      show ((leaveN sa 0 (if_delmulti (midA sa ll 1 l0) sa).2.1).1,
        (if_delmulti (midA sa ll 1 l0) sa).2.2 ::
          (leaveN sa 0 (if_delmulti (midA sa ll 1 l0) sa).2.1).2) = _
      rw [delmulti_midA_one sa ll l0 hne]
      rfl
    · have hn1 : 1 ≤ n := by omega
      have hk : ((n : Int) + 1) = ((n + 1 : Nat) : Int) := by push_cast; ring
      show ((leaveN sa n (if_delmulti (midA sa ll (n + 1 : Nat) l0) sa).2.1).1,
        (if_delmulti (midA sa ll (n + 1 : Nat) l0) sa).2.2 ::
          (leaveN sa n (if_delmulti (midA sa ll (n + 1 : Nat) l0) sa).2.1).2) = _
      rw [delmulti_midA_ge2 sa ll ((n + 1 : Nat) : Int) l0 (by push_cast; omega)]
      have hc : (((n + 1 : Nat) : Int) - 1) = (n : Int) := by push_cast; ring
      rw [hc]
      dsimp only
      rw [ih hn1]
      obtain ⟨m, rfl⟩ : ∃ m, n = m + 1 := ⟨n - 1, by omega⟩
      simp [List.replicate_succ]

theorem leaveN_midB (sa : Addr) (l0 : List Ifmultiaddr) :
    ∀ n : Nat, 1 ≤ n →
      leaveN sa n (midB sa n l0) = (l0, List.replicate (n - 1) 0 ++ [1]) := by
  intro n
  induction n with
  | zero => intro h; omega
  | succ n ih =>
    intro _
    by_cases hn : n = 0
    · subst hn
      show ((leaveN sa 0 (if_delmulti (midB sa 1 l0) sa).2.1).1,
        (if_delmulti (midB sa 1 l0) sa).2.2 ::
          (leaveN sa 0 (if_delmulti (midB sa 1 l0) sa).2.1).2) = _
      rw [delmulti_midB_one sa l0]
      rfl
    · have hn1 : 1 ≤ n := by omega
      show ((leaveN sa n (if_delmulti (midB sa (n + 1 : Nat) l0) sa).2.1).1,
        (if_delmulti (midB sa (n + 1 : Nat) l0) sa).2.2 ::
          (leaveN sa n (if_delmulti (midB sa (n + 1 : Nat) l0) sa).2.1).2) = _
      rw [delmulti_midB_ge2 sa ((n + 1 : Nat) : Int) l0 (by push_cast; omega)]
      have hc : (((n + 1 : Nat) : Int) - 1) = (n : Int) := by push_cast; ring
      rw [hc]
      dsimp only
      rw [ih hn1]
      obtain ⟨m, rfl⟩ : ∃ m, n = m + 1 := ⟨n - 1, by omega⟩
      simp [List.replicate_succ]

/-- C2: joining an address already present only increments that
membership's reference count in place and returns it with success; and
`N` joins of a previously absent address followed by `N` leaves returns
the membership count to zero — the final list is the initial one, the
membership and any link-layer membership the first join created being
gone — with the "reprogram the hardware filter" indication (the
last-reference result that triggers the driver `SIOCDELMULTI` call)
reported exactly once, on the final leave: the indications are `N - 1`
zeros followed by a single 1.  Both the resolved case (fresh link-layer
address) and the `EOPNOTSUPP` case are covered. -/
theorem c2_addmulti_idempotent_refcount :
    (∀ (res : Addr → ResolveRes) (l : List Ifmultiaddr) (sa : Addr)
        (m : Ifmultiaddr),
      if_findmulti l sa = some m →
      if_addmulti res l sa = (0, bumpRef l sa, some sa)) ∧
    (∀ (res : Addr → ResolveRes) (l0 : List Ifmultiaddr) (sa ll : Addr)
        (N : Nat), 1 ≤ N →
      if_findmulti l0 sa = none → res sa = ResolveRes.ok ll →
      if_findmulti l0 ll = none → sa ≠ ll →
      leaveN sa N (joinN res sa N l0) =
        (l0, List.replicate (N - 1) 0 ++ [1])) ∧
    (∀ (res : Addr → ResolveRes) (l0 : List Ifmultiaddr) (sa : Addr)
        (N : Nat), 1 ≤ N →
      if_findmulti l0 sa = none → res sa = ResolveRes.err EOPNOTSUPP →
      leaveN sa N (joinN res sa N l0) =
        (l0, List.replicate (N - 1) 0 ++ [1])) := by
  refine ⟨?_, ?_, ?_⟩
  · intro res l sa m hfind
    unfold if_addmulti
    rw [hfind]
  · intro res l0 sa ll N hN h0 hres hll hne
    obtain ⟨n, rfl⟩ : ∃ n, N = n + 1 := ⟨N - 1, by omega⟩
    have hjoin : joinN res sa (n + 1) l0 = midA sa ll ((n + 1 : Nat) : Int) l0 := by
      show joinN res sa n (if_addmulti res l0 sa).2.1 = _
      rw [addmulti_freshA res l0 sa ll h0 hres hll]
      dsimp only
      rw [joinN_midA]
      congr 1
      push_cast
      ring
    rw [hjoin]
    exact leaveN_midA sa ll l0 hne (n + 1) (by omega)
  · intro res l0 sa N hN h0 hres
    obtain ⟨n, rfl⟩ : ∃ n, N = n + 1 := ⟨N - 1, by omega⟩
    have hjoin : joinN res sa (n + 1) l0 = midB sa ((n + 1 : Nat) : Int) l0 := by
      show joinN res sa n (if_addmulti res l0 sa).2.1 = _
      rw [addmulti_freshB res l0 sa h0 hres]
      dsimp only
      rw [joinN_midB]
      congr 1
      push_cast
      ring
    rw [hjoin]
    exact leaveN_midB sa l0 (n + 1) (by omega)

/-- A concrete resolver: every address resolves to link-layer address
2 (as an Ethernet driver's `if_resolvemulti` maps an IP multicast
group to a MAC multicast address). -/
def resW : Addr → ResolveRes := fun _ => ResolveRes.ok (Addr.link 2)

/-- Witness for C2: three joins of protocol address 1 (resolving to
link address 2) then three leaves on an initially empty list end with
the empty list and the indications 0, 0, 1; a join of the same address
on the resulting one-join state bumps its count in place. -/
theorem c2_addmulti_idempotent_refcount_witness :
    leaveN (Addr.proto 1) 3 (joinN resW (Addr.proto 1) 3 []) =
      ([], List.replicate 2 0 ++ [1]) ∧
    if_addmulti resW (joinN resW (Addr.proto 1) 1 []) (Addr.proto 1) =
      (0, bumpRef (joinN resW (Addr.proto 1) 1 []) (Addr.proto 1),
        some (Addr.proto 1)) := by
  constructor
  · exact c2_addmulti_idempotent_refcount.2.1 resW [] (Addr.proto 1)
      (Addr.link 2) 3 (by decide) (by decide) rfl (by decide) (by decide)
  · exact c2_addmulti_idempotent_refcount.1 resW
      (joinN resW (Addr.proto 1) 1 [])
      (Addr.proto 1)
      (Ifmultiaddr.mk (Addr.proto 1) (some (Addr.link 2)) 1 (some (Addr.link 2)))
      (by decide)
